import Mathlib

/-!
Verification of the DNS packet writer (`dnswriter.hh`): a streaming encoder
that serializes a DNS message into wire format one resource record at a time,
maintaining the 12-byte message header counts and a name-compression table,
with a commit/rollback protocol.

Only the class declaration is present in the source unit; the method bodies
are modelled from the specification document, as noted on each definition.
Bytes are modelled as natural numbers (each meant to be below 256), buffers
as lists of bytes, and a domain name as its list of labels, each label a
list of bytes.
-/

set_option autoImplicit false

namespace DNSPacketWriter

/-- A domain name: the list of its labels, root-first omitted (a label is a
list of bytes; the empty list is the root name). -/
abbrev Name := List (List Nat)

/-- The label compression table: an association list from a fully qualified
domain name to the byte offset in the output buffer where that name's
encoding begins (`d_labelmap` in the source). -/
abbrev LMap := List (Name × Nat)

/-- First-match lookup of a name in the compression table. -/
def lookupName (lm : LMap) (n : Name) : Option Nat :=
  match lm with
  | [] => none
  | (m, o) :: rest => if m = n then some o else lookupName rest n

/-- Wire encoding of a single label: a length octet followed by the label
bytes. -/
def encLabel (l : List Nat) : List Nat := l.length % 256 :: l

/-- Wire encoding of a sequence of labels, without a terminator. -/
def encLabels : Name → List Nat
  | [] => []
  | l :: rest => encLabel l ++ encLabels rest

/-- Uncompressed wire encoding of a whole name: its labels followed by a
terminating zero octet (the root name is the single zero octet). -/
def encName (n : Name) : List Nat := encLabels n ++ [0]

/-- Modelled from the spec: the suffix scan of the label compressor
(§4.4 of the spec, inside `DNSPacketWriter::xfrLabel`).  Scans the name's
suffixes from the longest (the full name) down to the shortest, looking each
up in the compression table; the first suffix found in the table ends the
walk.  Returns the number of labels before the matched suffix together with
the matched offset, or `none` when no suffix is in the table. -/
def findSuffixMatch (lm : LMap) : Name → Option (Nat × Nat)
  | [] => none
  | l :: rest =>
    match lookupName lm (l :: rest) with
    | some o => some (0, o)
    | none => (findSuffixMatch lm rest).map (fun ko => (ko.1 + 1, ko.2))

/-- Modelled from the spec: the emission loop of the label compressor
(§4.4 and §7 of the spec, the body of `DNSPacketWriter::xfrLabel` with
compression requested).  Walks the labels; at each position the remaining
suffix is looked up in the table.  A hit with an offset inside the 14-bit
pointer range emits a 2-byte pointer (top two bits set) and stops; a hit
with an offset of 16384 or more must not become a pointer, so the remaining
suffix is written out in full (making the whole name uncompressed); a miss
emits the ordinary length-prefixed label and continues.  Exhausting the
labels emits the terminating zero octet. -/
def putLabels (lm : LMap) : Name → List Nat
  | [] => [0]
  | l :: rest =>
    match lookupName lm (l :: rest) with
    | some o =>
      if o < 16384 then [192 + o / 256, o % 256]
      else encLabels (l :: rest) ++ [0]
    | none => encLabel l ++ putLabels lm rest

/-- Modelled from the spec: `DNSPacketWriter::xfrLabel` (§4.4), whose body is
absent from the source unit.  `base` is the offset in the full message at
which the emitted bytes will begin.  The root name encodes as a single zero
octet and is never compression-eligible.  With compression off, the full
uncompressed form is written and the name's offset is still recorded.  With
compression on, the bytes come from the suffix-scanning walk, and a table
entry for the full name is recorded unless the full name itself was already
in the table with a usable (pointer-range) offset. -/
def xfrLabel (lm : LMap) (base : Nat) (name : Name) (compress : Bool) :
    List Nat × LMap :=
  if name = [] then ([0], lm)
  else if compress then
    (putLabels lm name,
     match lookupName lm name with
     | some o => if o < 16384 then lm else (name, base) :: lm
     | none => (name, base) :: lm)
  else (encName name, (name, base) :: lm)

/-- Record placement within the message sections (`DNSPacketWriter::Place`,
with source values ANSWER=1, AUTHORITY=2, ADDITIONAL=3). -/
inductive Place where
  | answer
  | authority
  | additional
deriving DecidableEq

/-- The numeric value of a placement, as in the source enum. -/
def Place.toNat : Place → Nat
  | .answer => 1
  | .authority => 2
  | .additional => 3

/-- Big-endian (network order) encoding of a 16-bit value. -/
def be16 (v : Nat) : List Nat := [v / 256 % 256, v % 256]

/-- Big-endian (network order) encoding of a 32-bit value. -/
def be32 (v : Nat) : List Nat :=
  [v / 16777216 % 256, v / 65536 % 256, v / 256 % 256, v % 256]

/-- The encoder state of `DNSPacketWriter`.  `content` holds the bytes of the
output buffer following the 12-byte header (question, then committed
records); the header's fields are kept as the `tid`, `flags` and four count
fields and serialized by `wire`.  `record` is the staging buffer
(`d_record`), `sor` the numeric section cursor (`d_sor`), `rollbackmarker`
the rollback checkpoint as an offset into `content`, `building` whether a
record is in progress, and `lastCommitted` the placement of the most
recently committed, not yet rolled back, record. -/
structure PW where
  tid : Nat
  flags : Nat
  qdcount : Nat
  ancount : Nat
  nscount : Nat
  arcount : Nat
  content : List Nat
  record : List Nat
  recordqname : Name
  recordqtype : Nat
  recordqclass : Nat
  recordttl : Nat
  recordplace : Place
  labelmap : LMap
  sor : Nat
  rollbackmarker : Nat
  building : Bool
  lastCommitted : Option Place
deriving DecidableEq

/-- The header count for a given placement. -/
def countOf (w : PW) : Place → Nat
  | .answer => w.ancount
  | .authority => w.nscount
  | .additional => w.arcount

/-- Increment the header count for a placement. -/
def bump (w : PW) : Place → PW
  | .answer => { w with ancount := w.ancount + 1 }
  | .authority => { w with nscount := w.nscount + 1 }
  | .additional => { w with arcount := w.arcount + 1 }

/-- Decrement the header count for the given placement, when one is given. -/
def unbump (w : PW) : Option Place → PW
  | none => w
  | some .answer => { w with ancount := w.ancount - 1 }
  | some .authority => { w with nscount := w.nscount - 1 }
  | some .additional => { w with arcount := w.arcount - 1 }

/-- The full output buffer as the caller sees it: the 12-byte header
(transaction id, flags, and the four counts, big-endian) followed by the
question and record bytes. -/
def wire (w : PW) : List Nat :=
  be16 w.tid ++ be16 w.flags ++ be16 w.qdcount ++ be16 w.ancount
    ++ be16 w.nscount ++ be16 w.arcount ++ w.content

/-- Modelled from the spec: `DNSPacketWriter::commit` (§4.5), whose body is
absent from the source unit.  A no-op when no record is in progress.  When
building, appends to the output buffer the record owner name (compressed),
type, class, TTL, a 16-bit RDATA length equal to the staging buffer's byte
count, then the staged bytes verbatim; increments the header count for the
record's placement; updates the rollback checkpoint to the offset at which
this record began; clears the stager and returns to idle. -/
def commit (w : PW) : PW :=
  if w.building then
    let owner := xfrLabel w.labelmap (12 + w.content.length) w.recordqname true
    bump
      { w with
        content := w.content ++ owner.1 ++ be16 w.recordqtype
            ++ be16 w.recordqclass ++ be32 w.recordttl
            ++ be16 w.record.length ++ w.record,
        labelmap := owner.2,
        record := [],
        building := false,
        rollbackmarker := w.content.length,
        lastCommitted := some w.recordplace }
      w.recordplace
  else w

/-- Modelled from the spec: `DNSPacketWriter::rollback` (§4.5), whose body is
absent from the source unit.  While building, simply discards the staged
bytes (the output buffer was never touched) and returns to idle.  Otherwise
truncates the output buffer back to the rollback checkpoint, discarding the
most recently committed record, and per the spec's rollback-undoes-commit
law also takes back that record's header count increment. -/
def rollback (w : PW) : PW :=
  if w.building then { w with record := [], building := false }
  else
    unbump
      { w with
        content := w.content.take w.rollbackmarker,
        record := [],
        lastCommitted := none }
      w.lastCommitted

/-- Modelled from the spec: `DNSPacketWriter::startRecord` (§4.5), whose
body is absent from the source unit.  First commits any record in progress;
then validates that the placement is not less than the section cursor
(sections are written in non-decreasing order; a violation is the fatal
usage error, modelled as `none`); on success advances the cursor to the
placement, stores the new record's identity fields, clears the stager and
enters the building state.  Parameters follow the source's order
(name, qtype, ttl, qclass, place). -/
def startRecord (w : PW) (name : Name) (qtype ttl qclass : Nat)
    (place : Place) : Option PW :=
  let w' := commit w
  if place.toNat < w'.sor then none
  else
    some
      { w' with
        recordqname := name,
        recordqtype := qtype,
        recordttl := ttl,
        recordqclass := qclass,
        recordplace := place,
        sor := place.toNat,
        record := [],
        building := true }

/-- Modelled from the spec: the `DNSPacketWriter` constructor (§4.1), whose
body is absent from the source unit.  Writes a 12-byte header whose
non-count fields are zero, appends the encoded question name (entered into
the compression table at offset 12), the 16-bit qtype and the 16-bit
qclass, and sets the question count to 1; the rollback checkpoint starts at
the end of the question section and the section cursor before the answer
section. -/
def mkWriter (qname : Name) (qtype qclass : Nat) : PW :=
  let q := xfrLabel [] 12 qname true
  let content := q.1 ++ be16 qtype ++ be16 qclass
  { tid := 0
    flags := 0
    qdcount := 1
    ancount := 0
    nscount := 0
    arcount := 0
    content := content
    record := []
    recordqname := []
    recordqtype := 0
    recordqclass := 0
    recordttl := 0
    recordplace := .answer
    labelmap := q.2
    sor := 0
    rollbackmarker := content.length
    building := false
    lastCommitted := none }

/-- Modelled from the spec: `DNSPacketWriter::xfr16BitInt` (§4.3), a
fixed-width big-endian append to the staging buffer. -/
def xfr16BitInt (w : PW) (v : Nat) : PW :=
  { w with record := w.record ++ be16 v }

/-- Modelled from the spec: `DNSPacketWriter::xfr32BitInt` (§4.3), a
fixed-width big-endian append to the staging buffer. -/
def xfr32BitInt (w : PW) (v : Nat) : PW :=
  { w with record := w.record ++ be32 v }

/-- Modelled from the spec: `DNSPacketWriter::xfr8BitInt` (§4.3). -/
def xfr8BitInt (w : PW) (v : Nat) : PW :=
  { w with record := w.record ++ [v % 256] }

/-- From the source (`dnswriter.hh`, inline body of
`DNSPacketWriter::xfrType`): the record type encoder simply calls the
16-bit integer encoder. -/
def xfrType (w : PW) (v : Nat) : PW := xfr16BitInt w v

/-- Modelled from the spec: `DNSPacketWriter::xfrBlob` (§4.3), an opaque
append of raw bytes to the staging buffer. -/
def xfrBlob (w : PW) (b : List Nat) : PW :=
  { w with record := w.record ++ b }

/-- Modelled from the spec: `DNSPacketWriter::xfrText` (§4.3, §7, §9): a
length-prefixed text encoder with a single length octet; text longer than
255 bytes is rejected at the call (never silently truncated), per the
spec's mandated rejection policy. -/
def xfrText (w : PW) (t : List Nat) : Option PW :=
  if 255 < t.length then none
  else some { w with record := w.record ++ t.length :: t }

/-! ## Concrete example states (used to instantiate the theorems) -/

/-- The example owner name `www` (a single three-byte label). -/
def exName : Name := [[119, 119, 119]]

/-- A freshly constructed writer with question `www`, qtype A(1),
qclass IN(1). -/
def exW0 : PW := mkWriter exName 1 1

/-- The writer after starting an answer record for the question name: a
Building state. -/
def exWB : PW := (startRecord exW0 exName 1 3600 1 .answer).getD exW0

/-- The Building state with four staged RDATA bytes (the address
`1.2.3.4`). -/
def exWB4 : PW := xfr32BitInt exWB 16909060

/-- The Idle state after committing that record: one answer is in the
buffer and the rollback checkpoint precedes it. -/
def exIdle : PW := commit exWB4

/-- A writer whose section cursor has advanced to AUTHORITY. -/
def exAuth : PW := (startRecord exW0 exName 2 3600 1 .authority).getD exW0

/-- A compression table holding the name `a` at offset 12. -/
def exTable : LMap := [([[97]], 12)]

/-- A compression table holding the name `a` at offset 20000, outside the
14-bit pointer range. -/
def exTableFar : LMap := [([[97]], 20000)]

/-- The example name `b.a`, whose suffix `a` is in the example tables. -/
def exNameBA : Name := [[98], [97]]

/-! ## Lemmas about the label compressor -/

theorem lookupName_nil (n : Name) : lookupName [] n = none := rfl

theorem putLabels_nil_table : ∀ n : Name, putLabels [] n = encName n
  | [] => by simp [putLabels, encName, encLabels]
  | l :: rest => by
    simp [putLabels, lookupName_nil, putLabels_nil_table rest, encName,
      encLabels, List.append_assoc]

theorem findSuffixMatch_some_first :
    ∀ (n : Name) (lm : LMap) (k o : Nat),
      findSuffixMatch lm n = some (k, o) →
      k < n.length ∧ lookupName lm (n.drop k) = some o ∧
        ∀ j, j < k → lookupName lm (n.drop j) = none
  | [], lm, k, o => by simp [findSuffixMatch]
  | l :: rest, lm, k, o => by
    cases hl : lookupName lm (l :: rest) with
    | some o' =>
      intro h
      simp [findSuffixMatch, hl] at h
      obtain ⟨hk, ho⟩ := h
      subst hk
      subst ho
      exact ⟨Nat.succ_pos _, hl, fun j hj => absurd hj (Nat.not_lt_zero j)⟩
    | none =>
      intro h
      simp [findSuffixMatch, hl] at h
      obtain ⟨k', hrest, hk⟩ := h
      subst hk
      obtain ⟨hlen, hfound, hbefore⟩ :=
        findSuffixMatch_some_first rest lm k' o hrest
      refine ⟨Nat.succ_lt_succ hlen, hfound, ?_⟩
      intro j hj
      cases j with
      | zero => exact hl
      | succ j' => exact hbefore j' (Nat.lt_of_succ_lt_succ hj)

theorem putLabels_match_small :
    ∀ (n : Name) (lm : LMap) (k o : Nat),
      findSuffixMatch lm n = some (k, o) → o < 16384 →
      putLabels lm n = encLabels (n.take k) ++ [192 + o / 256, o % 256]
  | [], lm, k, o => by simp [findSuffixMatch]
  | l :: rest, lm, k, o => by
    cases hl : lookupName lm (l :: rest) with
    | some o' =>
      intro h ho
      simp [findSuffixMatch, hl] at h
      obtain ⟨hk, ho'⟩ := h
      subst hk
      subst ho'
      simp [putLabels, hl, ho, encLabels]
    | none =>
      intro h ho
      simp [findSuffixMatch, hl] at h
      obtain ⟨k', hrest, hk⟩ := h
      subst hk
      simp [putLabels, hl, putLabels_match_small rest lm k' o hrest ho,
        encLabels, List.append_assoc]

theorem putLabels_match_large :
    ∀ (n : Name) (lm : LMap) (k o : Nat),
      findSuffixMatch lm n = some (k, o) → 16384 ≤ o →
      putLabels lm n = encName n
  | [], lm, k, o => by simp [findSuffixMatch]
  | l :: rest, lm, k, o => by
    cases hl : lookupName lm (l :: rest) with
    | some o' =>
      intro h ho
      simp [findSuffixMatch, hl] at h
      obtain ⟨hk, ho'⟩ := h
      subst ho'
      simp [putLabels, hl, Nat.not_lt.mpr ho, encName]
    | none =>
      intro h ho
      simp [findSuffixMatch, hl] at h
      obtain ⟨k', hrest, hk⟩ := h
      simp [putLabels, hl, putLabels_match_large rest lm k' o hrest ho,
        encName, encLabels, List.append_assoc]

theorem putLabels_no_match :
    ∀ (n : Name) (lm : LMap), findSuffixMatch lm n = none →
      putLabels lm n = encName n
  | [], lm => by simp [putLabels, encName, encLabels]
  | l :: rest, lm => by
    intro h
    cases hl : lookupName lm (l :: rest) with
    | some o' => simp [findSuffixMatch, hl] at h
    | none =>
      simp [findSuffixMatch, hl] at h
      simp [putLabels, hl, putLabels_no_match rest lm h, encName, encLabels,
        List.append_assoc]

theorem findSuffixMatch_none_lookup (lm : LMap) (l : List Nat) (rest : Name)
    (h : findSuffixMatch lm (l :: rest) = none) :
    lookupName lm (l :: rest) = none := by
  cases hl : lookupName lm (l :: rest) with
  | some o' => simp [findSuffixMatch, hl] at h
  | none => rfl

theorem xfrLabel_compress_fst (lm : LMap) (base : Nat) (name : Name)
    (h : name ≠ []) :
    (xfrLabel lm base name true).1 = putLabels lm name := by
  simp [xfrLabel, h]

/-! ## Lemmas about the commit/rollback controller -/

theorem countOf_bump (w : PW) (p q : Place) :
    countOf (bump w p) q = countOf w q + (if q = p then 1 else 0) := by
  cases p <;> cases q <;> simp [bump, countOf]

theorem countOf_unbump_some (w : PW) (p q : Place) :
    countOf (unbump w (some p)) q =
      countOf w q - (if q = p then 1 else 0) := by
  cases p <;> cases q <;> simp [unbump, countOf]

theorem bump_content (w : PW) (p : Place) : (bump w p).content = w.content := by
  cases p <;> rfl

theorem bump_qdcount (w : PW) (p : Place) : (bump w p).qdcount = w.qdcount := by
  cases p <;> rfl

theorem bump_building (w : PW) (p : Place) :
    (bump w p).building = w.building := by
  cases p <;> rfl

theorem bump_sor (w : PW) (p : Place) : (bump w p).sor = w.sor := by
  cases p <;> rfl

theorem bump_rollbackmarker (w : PW) (p : Place) :
    (bump w p).rollbackmarker = w.rollbackmarker := by
  cases p <;> rfl

theorem bump_lastCommitted (w : PW) (p : Place) :
    (bump w p).lastCommitted = w.lastCommitted := by
  cases p <;> rfl

theorem unbump_content (w : PW) (p : Option Place) :
    (unbump w p).content = w.content := by
  rcases p with _ | p
  · rfl
  · cases p <;> rfl

theorem unbump_qdcount (w : PW) (p : Option Place) :
    (unbump w p).qdcount = w.qdcount := by
  rcases p with _ | p
  · rfl
  · cases p <;> rfl

theorem commit_of_not_building (w : PW) (h : w.building = false) :
    commit w = w := by
  simp [commit, h]

theorem commit_building_eq_false (w : PW) : (commit w).building = false := by
  by_cases h : w.building
  · simp [commit, h, bump_building]
  · simp [commit, h, eq_false_of_ne_true h]

theorem commit_idem (w : PW) : commit (commit w) = commit w :=
  commit_of_not_building _ (commit_building_eq_false w)

theorem commit_content_of_building (w : PW) (h : w.building = true) :
    (commit w).content =
      w.content
        ++ (xfrLabel w.labelmap (12 + w.content.length) w.recordqname true).1
        ++ be16 w.recordqtype ++ be16 w.recordqclass ++ be32 w.recordttl
        ++ be16 w.record.length ++ w.record := by
  simp [commit, h, bump_content, List.append_assoc]

theorem commit_countOf_of_building (w : PW) (h : w.building = true)
    (p : Place) :
    countOf (commit w) p =
      countOf w p + (if p = w.recordplace then 1 else 0) := by
  have : countOf (commit w) p =
      countOf (bump { w with
        content := w.content
            ++ (xfrLabel w.labelmap (12 + w.content.length) w.recordqname
                  true).1
            ++ be16 w.recordqtype ++ be16 w.recordqclass ++ be32 w.recordttl
            ++ be16 w.record.length ++ w.record,
        labelmap :=
          (xfrLabel w.labelmap (12 + w.content.length) w.recordqname true).2,
        record := [],
        building := false,
        rollbackmarker := w.content.length,
        lastCommitted := some w.recordplace } w.recordplace) p := by
    simp [commit, h]
  rw [this, countOf_bump]
  cases p <;> simp [countOf]

theorem commit_qdcount (w : PW) : (commit w).qdcount = w.qdcount := by
  by_cases h : w.building
  · simp [commit, h, bump_qdcount]
  · simp [commit, h]

theorem commit_sor (w : PW) : (commit w).sor = w.sor := by
  by_cases h : w.building
  · simp [commit, h, bump_sor]
  · simp [commit, h]

theorem commit_rollbackmarker_of_building (w : PW) (h : w.building = true) :
    (commit w).rollbackmarker = w.content.length := by
  simp [commit, h, bump_rollbackmarker]

theorem commit_lastCommitted_of_building (w : PW) (h : w.building = true) :
    (commit w).lastCommitted = some w.recordplace := by
  simp [commit, h, bump_lastCommitted]

theorem countOf_update_noncount (x : PW) (c r : List Nat) (q : Place) :
    countOf { x with content := c, record := r, lastCommitted := none } q =
      countOf x q := by
  cases q <;> rfl

theorem rollback_restores_of_building (w : PW) (h : w.building = true) :
    (rollback (commit w)).content = w.content ∧
    (rollback (commit w)).qdcount = w.qdcount ∧
    ∀ q : Place, countOf (rollback (commit w)) q = countOf w q := by
  have hb : (commit w).building = false := commit_building_eq_false w
  have hrb : rollback (commit w) =
      unbump
        { commit w with
          content := (commit w).content.take (commit w).rollbackmarker,
          record := [],
          lastCommitted := none }
        (commit w).lastCommitted := by
    simp [rollback, hb]
  have hcontent : (commit w).content.take (commit w).rollbackmarker =
      w.content := by
    rw [commit_rollbackmarker_of_building w h, commit_content_of_building w h]
    simp [List.append_assoc, List.take_left]
  refine ⟨?_, ?_, ?_⟩
  · rw [hrb, unbump_content]
    exact hcontent
  · rw [hrb, unbump_qdcount]
    exact commit_qdcount w
  · intro q
    rw [hrb, commit_lastCommitted_of_building w h, countOf_unbump_some,
      countOf_update_noncount, commit_countOf_of_building w h]
    by_cases hq : q = w.recordplace <;> simp [hq]

/-! ## Claim theorems -/

/-- C1: for every encoder state in the Building state, commit appends to the
output buffer exactly the record owner name (compressed), the 16-bit type,
the 16-bit class, the 32-bit TTL, a 16-bit RDATA length holding the staging
buffer's byte count, then the staged bytes verbatim, and increments exactly
the header count of the record's declared placement (the question count is
untouched); when no record is in progress, commit changes nothing. -/
theorem commit_spec (w : PW) :
    (w.building = true →
      (commit w).content =
        w.content
          ++ (xfrLabel w.labelmap (12 + w.content.length) w.recordqname
                true).1
          ++ be16 w.recordqtype ++ be16 w.recordqclass ++ be32 w.recordttl
          ++ be16 w.record.length ++ w.record ∧
      (∀ p : Place,
        countOf (commit w) p =
          countOf w p + (if p = w.recordplace then 1 else 0)) ∧
      (commit w).qdcount = w.qdcount) ∧
    (w.building = false → commit w = w) :=
  ⟨fun h =>
    ⟨commit_content_of_building w h,
     fun p => commit_countOf_of_building w h p,
     commit_qdcount w⟩,
   fun h => commit_of_not_building w h⟩

/-- C2: with compression enabled, the encoder scans the name's suffixes from
the longest (the full name) down to the shortest and the first suffix found
in the table ends the walk (all earlier suffixes miss); the labels before
the matched suffix are emitted as ordinary length-prefixed labels followed
by a 2-byte pointer to the matched offset (when that offset is in pointer
range); and when no suffix matches, the whole name is emitted as ordinary
labels ending with a zero octet and the full name's starting offset is
added to the table. -/
theorem xfrLabel_compress_spec (lm : LMap) (base : Nat) (name : Name)
    (h : name ≠ []) :
    (∀ k o, findSuffixMatch lm name = some (k, o) →
      (k < name.length ∧ lookupName lm (name.drop k) = some o ∧
        ∀ j, j < k → lookupName lm (name.drop j) = none) ∧
      (o < 16384 →
        (xfrLabel lm base name true).1 =
          encLabels (name.take k) ++ [192 + o / 256, o % 256])) ∧
    (findSuffixMatch lm name = none →
      xfrLabel lm base name true = (encName name, (name, base) :: lm)) := by
  constructor
  · intro k o hfind
    refine ⟨findSuffixMatch_some_first name lm k o hfind, ?_⟩
    intro ho
    rw [xfrLabel_compress_fst lm base name h]
    exact putLabels_match_small name lm k o hfind ho
  · intro hfind
    obtain ⟨l, rest, rfl⟩ : ∃ l rest, name = l :: rest := by
      cases name with
      | nil => exact absurd rfl h
      | cons l rest => exact ⟨l, rest, rfl⟩
    have hlook := findSuffixMatch_none_lookup lm l rest hfind
    simp [xfrLabel, hlook, putLabels_no_match (l :: rest) lm hfind]

/-- C3 (amended): for every encoder state with a record in progress
(Building), the sequence commit(); rollback() restores the output buffer
and all four header section counts to the exact values they had immediately
before the commit() call.  (From Idle the pair is not the identity: commit
is a no-op there, while rollback still discards the most recently committed
record.) -/
theorem commit_rollback_building (w : PW) (h : w.building = true) :
    (rollback (commit w)).content = w.content ∧
    (rollback (commit w)).qdcount = w.qdcount ∧
    (rollback (commit w)).ancount = w.ancount ∧
    (rollback (commit w)).nscount = w.nscount ∧
    (rollback (commit w)).arcount = w.arcount := by
  obtain ⟨hc, hq, hcnt⟩ := rollback_restores_of_building w h
  exact ⟨hc, hq, hcnt .answer, hcnt .authority, hcnt .additional⟩

/-- C4: commit is idempotent: a second commit with no field-encoder or
startRecord call in between is a complete no-op, leaving the output buffer
bytes and every header count exactly as after the first commit. -/
theorem commit_twice_noop (w : PW) : commit (commit w) = commit w :=
  commit_idem w

/-- C5: when a record is in progress, startRecord first commits it: the
resulting run is the same as calling startRecord on the committed state, and
on success the output buffer and header counts are exactly those produced by
an explicit commit, with the new record's name, type, TTL, class and
placement stored and the staging buffer cleared. -/
theorem startRecord_commits_first (w : PW) (n : Name) (t ttl c : Nat)
    (p : Place) (h : w.building = true) :
    startRecord w n t ttl c p = startRecord (commit w) n t ttl c p ∧
    ∀ w', startRecord w n t ttl c p = some w' →
      w'.content = (commit w).content ∧
      (∀ q : Place, countOf w' q = countOf (commit w) q) ∧
      w'.qdcount = (commit w).qdcount ∧
      w'.recordqname = n ∧ w'.recordqtype = t ∧ w'.recordttl = ttl ∧
      w'.recordqclass = c ∧ w'.recordplace = p ∧ w'.record = [] ∧
      w'.building = true := by
  constructor
  · simp [startRecord, commit_idem]
  · intro w' hw'
    by_cases hc : p.toNat < (commit w).sor
    · simp [startRecord, hc] at hw'
    · simp [startRecord, hc] at hw'
      subst hw'
      refine ⟨rfl, ?_, rfl, rfl, rfl, rfl, rfl, rfl, rfl, rfl⟩
      intro q
      cases q <;> rfl

/-- C6: startRecord with a placement strictly below the section cursor fails
with the fatal usage error (modelled as `none`) and writes nothing; a
placement at or above the cursor succeeds and advances the cursor to that
placement. -/
theorem startRecord_section_order (w : PW) (n : Name) (t ttl c : Nat)
    (p : Place) :
    (p.toNat < w.sor → startRecord w n t ttl c p = none) ∧
    (w.sor ≤ p.toNat →
      ∃ w', startRecord w n t ttl c p = some w' ∧ w'.sor = p.toNat) := by
  constructor
  · intro h
    have : p.toNat < (commit w).sor := by rw [commit_sor]; exact h
    simp [startRecord, this]
  · intro h
    have hnot : ¬ p.toNat < (commit w).sor := by
      rw [commit_sor]; exact Nat.not_lt.mpr h
    refine ⟨{ commit w with
      recordqname := n, recordqtype := t, recordttl := ttl,
      recordqclass := c, recordplace := p, sor := p.toNat,
      record := [], building := true }, ?_, rfl⟩
    simp [startRecord, hnot]

/-- C7: if the compression target found by the suffix scan lies at a buffer
offset of 16384 or more (outside the 14-bit pointer range), the name is
written fully uncompressed instead of emitting a pointer. -/
theorem xfrLabel_offset_guard (lm : LMap) (base : Nat) (name : Name)
    (k o : Nat) (h1 : findSuffixMatch lm name = some (k, o))
    (h2 : 16384 ≤ o) :
    (xfrLabel lm base name true).1 = encName name := by
  have hne : name ≠ [] := by
    intro he
    rw [he] at h1
    simp [findSuffixMatch] at h1
  rw [xfrLabel_compress_fst lm base name hne]
  exact putLabels_match_large name lm k o h1 h2

/-- C8: the length-prefixed text encoder rejects text longer than 255 bytes
at the encoding call itself, and otherwise appends the single length octet
followed by the text verbatim — it never truncates. -/
theorem xfrText_spec (w : PW) (t : List Nat) :
    (255 < t.length → xfrText w t = none) ∧
    (t.length ≤ 255 →
      xfrText w t = some { w with record := w.record ++ t.length :: t }) := by
  constructor
  · intro h
    simp [xfrText, h]
  · intro h
    simp [xfrText, Nat.not_lt.mpr h]

/-- C9: construction leaves the output buffer holding exactly a 12-byte
header whose non-count fields are zero and whose question count is 1 (the
other three counts 0), followed by the encoded question name, the 16-bit
qtype and the 16-bit qclass. -/
theorem mkWriter_spec (qname : Name) (qtype qclass : Nat) :
    wire (mkWriter qname qtype qclass) =
      [0, 0, 0, 0, 0, 1, 0, 0, 0, 0, 0, 0] ++ encName qname
        ++ be16 qtype ++ be16 qclass ∧
    (mkWriter qname qtype qclass).qdcount = 1 ∧
    (mkWriter qname qtype qclass).ancount = 0 ∧
    (mkWriter qname qtype qclass).nscount = 0 ∧
    (mkWriter qname qtype qclass).arcount = 0 := by
  refine ⟨?_, rfl, rfl, rfl, rfl⟩
  by_cases h : qname = []
  · subst h
    simp [wire, mkWriter, xfrLabel, encName, encLabels, be16]
  · simp [wire, mkWriter, xfrLabel, h, putLabels_nil_table, be16]

/-- C10: the record type encoder is a pure alias of the 16-bit integer
encoder: for every state and value the two produce the same state. -/
theorem xfrType_alias (w : PW) (v : Nat) : xfrType w v = xfr16BitInt w v :=
  rfl

/-! ## Witnesses and counterexamples at concrete states -/

/-- Witness for C1 at the concrete Building state `exWB4`. -/
theorem commit_spec_witness :
    countOf (commit exWB4) .answer =
      countOf exWB4 .answer +
        (if Place.answer = exWB4.recordplace then 1 else 0) :=
  ((commit_spec exWB4).1 (by decide)).2.1 .answer

/-- Witness for C2: writing `b.a` against a table holding `a` at offset 12
emits the label `b` followed by a pointer to offset 12. -/
theorem xfrLabel_compress_spec_witness :
    (xfrLabel exTable 30 exNameBA true).1 =
      encLabels (exNameBA.take 1) ++ [192 + 12 / 256, 12 % 256] :=
  ((xfrLabel_compress_spec exTable 30 exNameBA (by decide)).1 1 12
    (by decide)).2 (by decide)

/-- Counterexample for C3 as stated over every encoder state: at the
concrete Idle state `exIdle` (reached by committing one answer record),
commit is a no-op but rollback still discards the committed record, so the
pair does not restore the buffer length or the answer count. -/
theorem commit_rollback_idle_cex :
    ¬ ((rollback (commit exIdle)).content.length = exIdle.content.length ∧
       (rollback (commit exIdle)).ancount = exIdle.ancount) := by
  decide

/-- Witness for the amended C3 at the concrete Building state `exWB4`. -/
theorem commit_rollback_building_witness :
    (rollback (commit exWB4)).content = exWB4.content ∧
    (rollback (commit exWB4)).qdcount = exWB4.qdcount ∧
    (rollback (commit exWB4)).ancount = exWB4.ancount ∧
    (rollback (commit exWB4)).nscount = exWB4.nscount ∧
    (rollback (commit exWB4)).arcount = exWB4.arcount :=
  commit_rollback_building exWB4 (by decide)

/-- Witness for C5 at the concrete Building state `exWB4`. -/
theorem startRecord_commits_first_witness :
    startRecord exWB4 exName 1 3600 1 .additional =
      startRecord (commit exWB4) exName 1 3600 1 .additional :=
  (startRecord_commits_first exWB4 exName 1 3600 1 .additional (by decide)).1

/-- Witness for C6: with the cursor at AUTHORITY, starting an ANSWER record
fails, while starting an ADDITIONAL record succeeds and advances the
cursor. -/
theorem startRecord_section_order_witness :
    startRecord exAuth exName 1 3600 1 .answer = none ∧
    ∃ w', startRecord exAuth exName 1 3600 1 .additional = some w' ∧
      w'.sor = 3 :=
  ⟨(startRecord_section_order exAuth exName 1 3600 1 .answer).1 (by decide),
   (startRecord_section_order exAuth exName 1 3600 1 .additional).2
     (by decide)⟩

/-- Witness for C7: writing `b.a` against a table holding `a` at offset
20000 yields the fully uncompressed encoding. -/
theorem xfrLabel_offset_guard_witness :
    (xfrLabel exTableFar 30000 exNameBA true).1 = encName exNameBA :=
  xfrLabel_offset_guard exTableFar 30000 exNameBA 1 20000 (by decide)
    (by decide)

/-- Witness for C8: a 256-byte text is rejected. -/
theorem xfrText_spec_witness :
    xfrText exW0 (List.replicate 256 0) = none :=
  (xfrText_spec exW0 (List.replicate 256 0)).1
    (by simp only [List.length_replicate]; norm_num)

end DNSPacketWriter
